import Mathlib

/-!
Shallow embedding of `src/api_coverage.py` (the coverage reconciliation
engine of ruuvi/ruuvi.cloudapi.yaml) and proofs about the claims on it.

Python strings are modelled as `List Char`; status codes as `ℤ`; Python
sets as `Finset`; Python dicts as association lists with first-match
lookup and in-place update (`upsert` / `addAt`), which reproduces dict
key-overwrite semantics.  Only ASCII text is modelled (the inputs of the
program are ASCII).
-/

/-- Python whitespace for `str.strip` / `str.split()`:
space, tab, newline, carriage return, vertical tab, form feed. -/
def pyIsSpace (c : Char) : Bool :=
  c = ' ' || c = '\t' || c = '\n' || c = '\r' || c = Char.ofNat 11 || c = Char.ofNat 12

/-- Python `str.strip()`: drop whitespace from both ends. -/
def pyStrip (s : List Char) : List Char :=
  (((s.dropWhile pyIsSpace).reverse).dropWhile pyIsSpace).reverse

/-- Helper of `pySplit`: accumulate the current word (reversed in `acc`). -/
def pySplitAux : List Char → List Char → List (List Char)
  | [], acc => if acc = [] then [] else [acc.reverse]
  | c :: rest, acc =>
    if pyIsSpace c then
      (if acc = [] then pySplitAux rest [] else acc.reverse :: pySplitAux rest [])
    else pySplitAux rest (c :: acc)

/-- Python `str.split()` with no argument: split on whitespace runs,
discarding empty pieces. -/
def pySplit (s : List Char) : List (List Char) := pySplitAux s []

/-- Numeric value of an ASCII digit character. -/
def digitVal (c : Char) : ℕ := c.toNat - '0'.toNat

/-- Digits of a Python integer literal after the first digit: further
digits, with single underscores allowed between digits (as `int()` allows). -/
def pyDigitsAux : List Char → ℕ → Option ℕ
  | [], acc => some acc
  | ['_'], _ => none
  | '_' :: c :: rest, acc =>
    if c.isDigit then pyDigitsAux rest (acc * 10 + digitVal c) else none
  | c :: rest, acc =>
    if c.isDigit then pyDigitsAux rest (acc * 10 + digitVal c) else none

/-- A nonempty all-digit (with optional inner underscores) string, as a `ℕ`. -/
def pyParseNat : List Char → Option ℕ
  | c :: rest => if c.isDigit then pyDigitsAux rest (digitVal c) else none
  | [] => none

/-- Python `int(token)`: strip whitespace, optional sign, then digits. -/
def pyParseInt (s : List Char) : Option ℤ :=
  match pyStrip s with
  | '+' :: rest => (pyParseNat rest).map (fun n => (n : ℤ))
  | '-' :: rest => (pyParseNat rest).map (fun n => -(n : ℤ))
  | rest => (pyParseNat rest).map (fun n => (n : ℤ))

/-- Decimal digit characters of a natural number, with explicit fuel so the
definition is structural (the fuel `n + 1` always suffices). -/
def natCharsAux : ℕ → ℕ → List Char
  | 0, _ => []
  | fuel + 1, n =>
    if n < 10 then [Nat.digitChar n]
    else natCharsAux fuel (n / 10) ++ [Nat.digitChar (n % 10)]

/-- Decimal rendering of a natural number (`str` of a nonnegative int). -/
def natChars (n : ℕ) : List Char := natCharsAux (n + 1) n

/-- Python `str(status)` for an integer: minus sign then digits when
negative, plain digits otherwise. -/
def pyStrInt (n : ℤ) : List Char :=
  if n < 0 then '-' :: natChars n.natAbs else natChars n.toNat

/-- `class StatusIgnore`: the parsed ignore directives — an exact-code set
and the set of leading digits of `dXX` class rules (`self.prefixes`). -/
structure StatusIgnore where
  codes : Finset ℤ
  prefixes : Finset Char
deriving DecidableEq

/-- `StatusIgnore._add_token`: an atomic token either parses as an integer
(exact rule), or has shape `<digit>XX` (class rule), or is dropped silently. -/
def addToken (ig : StatusIgnore) (token : List Char) : StatusIgnore :=
  match pyParseInt token with
  | some n => { ig with codes := insert n ig.codes }
  | none =>
    if token.length = 3 ∧ (token.headD ' ').isDigit ∧ token.drop 1 = ['X', 'X'] then
      { ig with prefixes := insert (token.headD ' ') ig.prefixes }
    else ig

/-- One iteration of the `StatusIgnore.__init__` loop: strip the pattern,
skip it when empty, split comma/space-separated lists, feed `addToken`. -/
def processToken (ig : StatusIgnore) (raw : List Char) : StatusIgnore :=
  if pyStrip raw = [] then ig
  else if ',' ∈ pyStrip raw ∨ ' ' ∈ pyStrip raw then
    (pySplit ((pyStrip raw).map (fun c => if c = ',' then ' ' else c))).foldl addToken ig
  else addToken ig (pyStrip raw)

/-- `StatusIgnore.__init__(patterns)`. -/
def buildStatusIgnore (patterns : List (List Char)) : StatusIgnore :=
  patterns.foldl processToken ⟨∅, ∅⟩

/-- `StatusIgnore.is_ignored(status)`: exact-set membership, or a
3-character decimal rendering whose first character is a registered class key. -/
def is_ignored (ig : StatusIgnore) (status : ℤ) : Bool :=
  if status ∈ ig.codes then true
  else if (pyStrInt status).length = 3 ∧ (pyStrInt status).headD ' ' ∈ ig.prefixes then true
  else false

example : is_ignored (buildStatusIgnore ["429".data, "5XX".data]) 429 = true := by decide
example : is_ignored (buildStatusIgnore ["429".data, "5XX".data]) 500 = true := by decide
example : is_ignored (buildStatusIgnore ["429".data, "5XX".data]) 404 = false := by decide
example : is_ignored (buildStatusIgnore ["429".data, "5XX".data]) (-500) = false := by decide

/-- The coverage-health color of an endpoint. -/
inductive Color where
  | green
  | yellow
  | red
  | grey
deriving DecidableEq

/-- The dict returned by `classify_endpoint`. -/
structure ClassificationRecord where
  method : List Char
  path : List Char
  documented : Finset ℤ
  nonignored_docs : Finset ℤ
  ignored_docs : Finset ℤ
  seen : Finset ℤ
  passing : Finset ℤ
  failing : Finset ℤ
  covered_passing : Finset ℤ
  covered_failing : Finset ℤ
  untested : Finset ℤ
  ignored_passing : Finset ℤ
  ignored_failing : Finset ℤ
  extra_nonignored : Finset ℤ
  extra_ignored : Finset ℤ
  color : Color
deriving DecidableEq

/-- `classify_endpoint` (src/api_coverage.py lines 136-218), translated
clause by clause: the per-code `if / elif / else` loop over
`nonignored_docs` becomes three filters with the same guards. -/
def classify_endpoint (method path : List Char) (documented_codes seen passing failing : Finset ℤ)
    (ignore : StatusIgnore) : ClassificationRecord :=
  let nonignored_docs := documented_codes.filter (fun c => ¬ is_ignored ignore c)
  let ignored_docs := documented_codes \ nonignored_docs
  let extra_statuses := seen \ documented_codes
  let covered_failing := nonignored_docs.filter (fun c => c ∈ failing)
  let covered_passing := nonignored_docs.filter (fun c => c ∉ failing ∧ c ∈ passing)
  let untested := nonignored_docs.filter (fun c => c ∉ failing ∧ c ∉ passing)
  let ignored_passing := ignored_docs.filter (fun c => c ∈ passing ∧ c ∉ failing)
  let ignored_failing := ignored_docs.filter (fun c => c ∈ failing)
  let extra_ignored := extra_statuses.filter (fun c => is_ignored ignore c)
  let extra_nonignored := extra_statuses \ extra_ignored
  let has_any_coverage : Prop :=
    covered_passing ≠ ∅ ∨ covered_failing ≠ ∅ ∨ ignored_passing ≠ ∅ ∨
      ignored_failing ≠ ∅ ∨ extra_statuses ≠ ∅
  let has_any_passing : Prop := covered_passing ≠ ∅ ∨ ignored_passing ≠ ∅
  let has_any_failing : Prop :=
    covered_failing ≠ ∅ ∨ ignored_failing ≠ ∅ ∨ extra_statuses ≠ ∅
  let color :=
    if ¬ has_any_coverage then Color.grey
    else
      if has_any_failing then
        (if has_any_passing then Color.yellow else Color.red)
      else
        (if covered_passing.card = nonignored_docs.card then Color.green else Color.yellow)
  { method := method
    path := path
    documented := documented_codes
    nonignored_docs := nonignored_docs
    ignored_docs := ignored_docs
    seen := seen
    passing := passing
    failing := failing
    covered_passing := covered_passing
    covered_failing := covered_failing
    untested := untested
    ignored_passing := ignored_passing
    ignored_failing := ignored_failing
    extra_nonignored := extra_nonignored
    extra_ignored := extra_ignored
    color := color }

section ClassifyExamples

/-- Default ignore rules used by `main` when none are supplied. -/
def defaultIgnore : StatusIgnore := buildStatusIgnore ["429".data, "5XX".data]

-- Grey scenario from the spec's testable properties.
example :
    (classify_endpoint "GET".data "/x".data {200, 404} ∅ ∅ ∅ defaultIgnore).color =
      Color.grey := by decide

-- Green scenario.
example :
    (classify_endpoint "GET".data "/x".data {200} {200} {200} ∅ defaultIgnore).color =
      Color.green := by decide

-- Red scenario.
example :
    (classify_endpoint "GET".data "/x".data {200, 500} {200} ∅ {200} defaultIgnore).color =
      Color.red := by decide

-- Yellow via an extra status.
example :
    (classify_endpoint "GET".data "/x".data {200} {200, 418} {200} ∅ defaultIgnore).color =
      Color.yellow := by decide

end ClassifyExamples

/-! ### The HAR / verdict pipeline of `load_har` and `main` -/

/-- `(method, path)` identity for grouping, method already upper-cased by
the loader. -/
abbrev EndpointKey := List Char × List Char

/-- A correlation id (`X-Schemathesis-TestCaseId` header value). -/
abbrev CaseId := List Char

/-- One HAR entry after the mechanical field extraction of `load_har`
(method upper-casing, URL-to-path, header scan): the endpoint, the
response status, and the correlation id when the tracing header was present. -/
structure Obs where
  endpoint : EndpointKey
  status : ℤ
  caseId : Option CaseId
deriving DecidableEq

/-- `defaultdict(set)` update `m[k].add(v)` on an association list. -/
def addAt {α : Type} [DecidableEq α] (k : α) (v : ℤ) :
    List (α × Finset ℤ) → List (α × Finset ℤ)
  | [] => [(k, {v})]
  | (k', s) :: rest =>
    if k' = k then (k', insert v s) :: rest else (k', s) :: addAt k v rest

/-- Dict lookup with `set()` default: `m.get(k, set())` /
`defaultdict` read access. -/
def lookupD {α : Type} [DecidableEq α] (k : α) : List (α × Finset ℤ) → Finset ℤ
  | [] => ∅
  | (k', s) :: rest => if k' = k then s else lookupD k rest

/-- Dict assignment `m[k] = v`: overwrite the existing binding in place,
else append. -/
def upsert {α β : Type} [DecidableEq α] (k : α) (v : β) :
    List (α × β) → List (α × β)
  | [] => [(k, v)]
  | (k', v') :: rest =>
    if k' = k then (k, v) :: rest else (k', v') :: upsert k v rest

/-- Dict lookup returning `none` when the key is absent. -/
def lookupCase {α β : Type} [DecidableEq α] (k : α) : List (α × β) → Option β
  | [] => none
  | (k', v) :: rest => if k' = k then some v else lookupCase k rest

/-- The `seen_statuses` map built by the `load_har` entry loop. -/
def buildSeen (obs : List Obs) : List (EndpointKey × Finset ℤ) :=
  obs.foldl (fun acc o => addAt o.endpoint o.status acc) []

/-- The `case_to_triplet` dict built by the `load_har` entry loop: keyed by
correlation id, a later entry with the same id overwrites the earlier one. -/
def buildCaseMap (obs : List Obs) : List (CaseId × (EndpointKey × ℤ)) :=
  obs.foldl
    (fun acc o =>
      match o.caseId with
      | some cid => upsert cid (o.endpoint, o.status) acc
      | none => acc)
    []

/-- The first verdict loop of `main` (lines 355-359): route each
correlated (endpoint, status) into `failing_statuses` or `passing_statuses`. -/
def buildVerdicts (caseMap : List (CaseId × (EndpointKey × ℤ))) (failingIds : Finset CaseId) :
    List (EndpointKey × Finset ℤ) × List (EndpointKey × Finset ℤ) :=
  caseMap.foldl
    (fun acc p =>
      if p.1 ∈ failingIds then (addAt p.2.1 p.2.2 acc.1, acc.2)
      else (acc.1, addAt p.2.1 p.2.2 acc.2))
    ([], [])

/-- Inner loop of the fallback pass of `main` (lines 362-371), for one
endpoint's seen statuses. -/
def fallbackInner (failingList : List (EndpointKey × Finset ℤ)) (ep : EndpointKey)
    (pl : List (EndpointKey × Finset ℤ)) (sts : List ℤ) : List (EndpointKey × Finset ℤ) :=
  sts.foldl
    (fun pl' st =>
      if st ∈ lookupD ep failingList then pl'
      else if st ∈ lookupD ep pl' then pl'
      else addAt ep st pl')
    pl

/-- The fallback pass of `main` (lines 361-371): every status seen in the
HAR that is not already failing nor passing is assumed passing.  Python
iterates each status set in unspecified order; the result is
order-independent, and we enumerate the set in sorted order. -/
def applyFallback (seenList failingList pl : List (EndpointKey × Finset ℤ)) :
    List (EndpointKey × Finset ℤ) :=
  seenList.foldl (fun pl' e => fallbackInner failingList e.1 pl' (e.2.sort (· ≤ ·))) pl

/-- The `failing_statuses` map as `classify_endpoint` receives it. -/
def pipelineFailing (obs : List Obs) (failingIds : Finset CaseId) :
    List (EndpointKey × Finset ℤ) :=
  (buildVerdicts (buildCaseMap obs) failingIds).1

/-- The `passing_statuses` map as `classify_endpoint` receives it, after
the fallback pass. -/
def pipelinePassing (obs : List Obs) (failingIds : Finset CaseId) :
    List (EndpointKey × Finset ℤ) :=
  applyFallback (buildSeen obs) (pipelineFailing obs failingIds)
    (buildVerdicts (buildCaseMap obs) failingIds).2

/-! ### `load_failing_test_ids` -/

/-- The suffix of `l` after the first occurrence of `pat`
(`l.split(pat, 1)[1]` when it exists, i.e. Python `split` found the
separator). -/
def afterFirst (pat : List Char) : List Char → Option (List Char)
  | [] => if pat = [] then some [] else none
  | c :: rest =>
    if pat.isPrefixOf (c :: rest) then some ((c :: rest).drop pat.length)
    else afterFirst pat rest

/-- Per-line branch logic of `load_failing_test_ids` (lines 117-132):
strip the line, require the `1. ` / `2. ` indexed form or the bare
`Test Case ID:` form, split once on `Test Case ID:` and keep the stripped
non-empty id. -/
def extractLine (line : List Char) : Option (List Char) :=
  if ("1. Test Case ID:".data.isPrefixOf (pyStrip line) ||
      "2. Test Case ID:".data.isPrefixOf (pyStrip line)) then
    match afterFirst "Test Case ID:".data (pyStrip line) with
    | some rest => if pyStrip rest = [] then none else some (pyStrip rest)
    | none => none
  else if "Test Case ID:".data.isPrefixOf (pyStrip line) then
    match afterFirst "Test Case ID:".data (pyStrip line) with
    | some rest => if pyStrip rest = [] then none else some (pyStrip rest)
    | none => none
  else none

/-- The inner line loop body of `load_failing_test_ids`: collect the id a
line yields, if any. -/
def lineStep (acc : Finset (List Char)) (line : List Char) : Finset (List Char) :=
  match extractLine line with
  | some cid => insert cid acc
  | none => acc

/-- One failure element's message: fold its lines. -/
def msgStep (acc : Finset (List Char)) (msg : List (List Char)) : Finset (List Char) :=
  msg.foldl lineStep acc

/-- `load_failing_test_ids`: each failure element's message, already split
into lines by the XML loader boundary, contributes the ids its lines match. -/
def load_failing_test_ids (messages : List (List (List Char))) : Finset (List Char) :=
  messages.foldl msgStep ∅

example :
    load_failing_test_ids [["1. Test Case ID: 7dQuzM".data, "noise".data]] =
      {"7dQuzM".data} := by decide
example : load_failing_test_ids [["3. Test Case ID: xyz".data]] = ∅ := by decide

/-! ### Summary aggregation and the percentage guard -/

/-- One cell of the percentage column: either the `-` placeholder or a
value computed by the division branch (idealized over `ℚ`; the claims do
not concern the floating-point rendering). -/
inductive PctCell where
  | dash
  | val (q : ℚ)
deriving DecidableEq

/-- The `pct` helper of `render_html` (lines 256-257): Python's
`... if total_doc else "-"`, the condition being integer truthiness. -/
def pct (total_doc x : ℕ) : PctCell :=
  if total_doc ≠ 0 then PctCell.val ((x : ℚ) * 100 / (total_doc : ℚ)) else PctCell.dash

/-- The run-level totals accumulated by `main` (lines 373-402). -/
structure Summary where
  total_doc : ℕ
  total_pass : ℕ
  total_fail : ℕ
  total_untested : ℕ
  extra_total : ℕ
deriving DecidableEq

/-- Inputs of one endpoint's classification inside `main`'s report loop. -/
structure EndpointInput where
  method : List Char
  path : List Char
  documented : Finset ℤ
  seen : Finset ℤ
  passing : Finset ℤ
  failing : Finset ℤ

/-- The summary-update body of `main`'s report loop (lines 397-402). -/
def summaryStep (ignore : StatusIgnore) (s : Summary) (inp : EndpointInput) : Summary :=
  let ep := classify_endpoint inp.method inp.path inp.documented inp.seen inp.passing
    inp.failing ignore
  { total_doc := s.total_doc + ep.nonignored_docs.card
    total_pass := s.total_pass + ep.covered_passing.card
    total_fail := s.total_fail + ep.covered_failing.card
    total_untested := s.total_untested + ep.untested.card
    extra_total := s.extra_total + (ep.extra_nonignored.card + ep.extra_ignored.card) }

/-- The aggregation of `main` over all documented endpoints. -/
def summarize (ignore : StatusIgnore) (inputs : List EndpointInput) : Summary :=
  inputs.foldl (summaryStep ignore) ⟨0, 0, 0, 0, 0⟩

/-! ### Helper lemmas about `classify_endpoint` -/

section ClassifyLemmas

variable (method path : List Char) (documented seen passing failing : Finset ℤ)
variable (ignore : StatusIgnore)

lemma classify_docs_union :
    (classify_endpoint method path documented seen passing failing ignore).nonignored_docs ∪
      (classify_endpoint method path documented seen passing failing ignore).ignored_docs =
      documented := by
  show documented.filter _ ∪ (documented \ documented.filter _) = documented
  exact Finset.union_sdiff_of_subset (Finset.filter_subset _ _)

lemma classify_docs_disjoint :
    Disjoint (classify_endpoint method path documented seen passing failing ignore).nonignored_docs
      (classify_endpoint method path documented seen passing failing ignore).ignored_docs := by
  show Disjoint (documented.filter _) (documented \ documented.filter _)
  exact Finset.disjoint_sdiff

lemma classify_covered_union :
    (classify_endpoint method path documented seen passing failing ignore).covered_passing ∪
      (classify_endpoint method path documented seen passing failing ignore).covered_failing ∪
      (classify_endpoint method path documented seen passing failing ignore).untested =
      (classify_endpoint method path documented seen passing failing ignore).nonignored_docs := by
  show (Finset.filter _ _ ∪ Finset.filter _ _ ∪ Finset.filter _ _) = Finset.filter _ _
  ext c
  simp only [Finset.mem_union, Finset.mem_filter]
  by_cases hf : c ∈ failing <;> by_cases hp : c ∈ passing <;> tauto

lemma classify_cp_cf_disjoint :
    Disjoint (classify_endpoint method path documented seen passing failing ignore).covered_passing
      (classify_endpoint method path documented seen passing failing ignore).covered_failing := by
  show Disjoint (Finset.filter _ _) (Finset.filter _ _)
  rw [Finset.disjoint_left]
  intro c hc hc'
  simp only [Finset.mem_filter] at hc hc'
  tauto

lemma classify_cp_ut_disjoint :
    Disjoint (classify_endpoint method path documented seen passing failing ignore).covered_passing
      (classify_endpoint method path documented seen passing failing ignore).untested := by
  show Disjoint (Finset.filter _ _) (Finset.filter _ _)
  rw [Finset.disjoint_left]
  intro c hc hc'
  simp only [Finset.mem_filter] at hc hc'
  tauto

lemma classify_cf_ut_disjoint :
    Disjoint (classify_endpoint method path documented seen passing failing ignore).covered_failing
      (classify_endpoint method path documented seen passing failing ignore).untested := by
  show Disjoint (Finset.filter _ _) (Finset.filter _ _)
  rw [Finset.disjoint_left]
  intro c hc hc'
  simp only [Finset.mem_filter] at hc hc'
  tauto

lemma classify_extra_union :
    (classify_endpoint method path documented seen passing failing ignore).extra_nonignored ∪
      (classify_endpoint method path documented seen passing failing ignore).extra_ignored =
      seen \ documented := by
  show ((seen \ documented) \ Finset.filter _ _) ∪ Finset.filter _ _ = seen \ documented
  rw [Finset.sdiff_union_self_eq_union, Finset.union_eq_left]
  exact Finset.filter_subset _ _

lemma classify_extra_disjoint :
    Disjoint
      (classify_endpoint method path documented seen passing failing ignore).extra_nonignored
      (classify_endpoint method path documented seen passing failing ignore).extra_ignored := by
  show Disjoint ((seen \ documented) \ Finset.filter _ _) (Finset.filter _ _)
  exact Finset.sdiff_disjoint

/-- The per-endpoint count identity behind the run totals. -/
lemma classify_card_identity :
    (classify_endpoint method path documented seen passing failing ignore).covered_passing.card +
      (classify_endpoint method path documented seen passing failing ignore).covered_failing.card +
      (classify_endpoint method path documented seen passing failing ignore).untested.card =
      (classify_endpoint method path documented seen passing failing ignore).nonignored_docs.card := by
  rw [← classify_covered_union method path documented seen passing failing ignore]
  rw [Finset.card_union_of_disjoint, Finset.card_union_of_disjoint]
  · exact classify_cp_cf_disjoint method path documented seen passing failing ignore
  · rw [Finset.disjoint_union_left]
    exact ⟨classify_cp_ut_disjoint method path documented seen passing failing ignore,
      classify_cf_ut_disjoint method path documented seen passing failing ignore⟩

/-- Both extra buckets are empty exactly when `extra_statuses` is. -/
lemma classify_extra_empty_iff :
    ((classify_endpoint method path documented seen passing failing ignore).extra_nonignored = ∅ ∧
      (classify_endpoint method path documented seen passing failing ignore).extra_ignored = ∅) ↔
      seen \ documented = ∅ := by
  constructor
  · intro h
    have := classify_extra_union method path documented seen passing failing ignore
    rw [h.1, h.2] at this
    simpa using this.symm
  · intro h
    constructor
    · show (seen \ documented) \ Finset.filter _ _ = ∅
      rw [h]
      simp
    · show Finset.filter _ (seen \ documented) = ∅
      rw [h]
      simp

end ClassifyLemmas

/-- The `color` field unfolded: exactly the decision chain of
`classify_endpoint` lines 186-199, stated over the record's fields. -/
lemma classify_color_def (method path : List Char)
    (documented seen passing failing : Finset ℤ) (ignore : StatusIgnore) :
    (classify_endpoint method path documented seen passing failing ignore).color =
      (if ¬((classify_endpoint method path documented seen passing failing ignore).covered_passing ≠ ∅ ∨
            (classify_endpoint method path documented seen passing failing ignore).covered_failing ≠ ∅ ∨
            (classify_endpoint method path documented seen passing failing ignore).ignored_passing ≠ ∅ ∨
            (classify_endpoint method path documented seen passing failing ignore).ignored_failing ≠ ∅ ∨
            seen \ documented ≠ ∅) then Color.grey
       else if ((classify_endpoint method path documented seen passing failing ignore).covered_failing ≠ ∅ ∨
            (classify_endpoint method path documented seen passing failing ignore).ignored_failing ≠ ∅ ∨
            seen \ documented ≠ ∅) then
         (if ((classify_endpoint method path documented seen passing failing ignore).covered_passing ≠ ∅ ∨
              (classify_endpoint method path documented seen passing failing ignore).ignored_passing ≠ ∅) then
            Color.yellow
          else Color.red)
       else if (classify_endpoint method path documented seen passing failing ignore).covered_passing.card =
            (classify_endpoint method path documented seen passing failing ignore).nonignored_docs.card then
         Color.green
       else Color.yellow) := rfl

/-- The color-decision procedure as the specification words it, over the
fields of a classification record: grey without any coverage signal, then
failure signals (either extra bucket counting as failure), then the
full-pass cardinality test. -/
def specColor (r : ClassificationRecord) : Color :=
  if r.covered_passing = ∅ ∧ r.covered_failing = ∅ ∧ r.ignored_passing = ∅ ∧
      r.ignored_failing = ∅ ∧ r.extra_nonignored = ∅ ∧ r.extra_ignored = ∅ then
    Color.grey
  else if r.covered_failing ≠ ∅ ∨ r.ignored_failing ≠ ∅ ∨
      r.extra_nonignored ≠ ∅ ∨ r.extra_ignored ≠ ∅ then
    (if r.covered_passing ≠ ∅ ∨ r.ignored_passing ≠ ∅ then Color.yellow else Color.red)
  else if r.covered_passing.card = r.nonignored_docs.card then Color.green
  else Color.yellow

/-- The code's color chain agrees with `specColor` on any record whose
extra buckets partition a set `sd` (the code tests `sd ≠ ∅`, the spec the
two buckets). -/
lemma specColor_eq_code (r : ClassificationRecord) (sd : Finset ℤ)
    (hext : (r.extra_nonignored = ∅ ∧ r.extra_ignored = ∅) ↔ sd = ∅) :
    (if ¬(r.covered_passing ≠ ∅ ∨ r.covered_failing ≠ ∅ ∨ r.ignored_passing ≠ ∅ ∨
          r.ignored_failing ≠ ∅ ∨ sd ≠ ∅) then Color.grey
     else if (r.covered_failing ≠ ∅ ∨ r.ignored_failing ≠ ∅ ∨ sd ≠ ∅) then
       (if (r.covered_passing ≠ ∅ ∨ r.ignored_passing ≠ ∅) then Color.yellow else Color.red)
     else if r.covered_passing.card = r.nonignored_docs.card then Color.green
     else Color.yellow) = specColor r := by
  have h2 : (r.extra_nonignored ≠ ∅ ∨ r.extra_ignored ≠ ∅) ↔ sd ≠ ∅ := by
    rw [Ne, Ne, Ne, ← hext, not_and_or]
  unfold specColor
  simp only [hext, h2, not_or, not_not]

/-- C1: for every endpoint classification, the color is decided in the
fixed order the spec states: grey when no coverage signal exists; else
yellow/red by failure and passing signals (either extra bucket being a
failure signal); else green exactly when every non-ignored documented
code is covered and passing, and yellow otherwise. -/
theorem claim_C1 (method path : List Char) (documented seen passing failing : Finset ℤ)
    (ignore : StatusIgnore) :
    (classify_endpoint method path documented seen passing failing ignore).color =
      specColor (classify_endpoint method path documented seen passing failing ignore) := by
  rw [classify_color_def]
  exact specColor_eq_code _ _
    (classify_extra_empty_iff method path documented seen passing failing ignore)

/-- C3: the three partition invariants of every classification record:
non-ignored and ignored documented codes partition the documented set;
covered-passing, covered-failing and untested partition the non-ignored
documented set; the two extra buckets partition `seen − documented`. -/
theorem claim_C3 (method path : List Char) (documented seen passing failing : Finset ℤ)
    (ignore : StatusIgnore) :
    let r := classify_endpoint method path documented seen passing failing ignore
    (r.nonignored_docs ∪ r.ignored_docs = r.documented ∧
      Disjoint r.nonignored_docs r.ignored_docs) ∧
    (r.covered_passing ∪ r.covered_failing ∪ r.untested = r.nonignored_docs ∧
      Disjoint r.covered_passing r.covered_failing ∧
      Disjoint r.covered_passing r.untested ∧
      Disjoint r.covered_failing r.untested) ∧
    (r.extra_nonignored ∪ r.extra_ignored = r.seen \ r.documented ∧
      Disjoint r.extra_nonignored r.extra_ignored) := by
  refine ⟨⟨?_, ?_⟩, ⟨?_, ?_, ?_, ?_⟩, ⟨?_, ?_⟩⟩
  · exact classify_docs_union method path documented seen passing failing ignore
  · exact classify_docs_disjoint method path documented seen passing failing ignore
  · exact classify_covered_union method path documented seen passing failing ignore
  · exact classify_cp_cf_disjoint method path documented seen passing failing ignore
  · exact classify_cp_ut_disjoint method path documented seen passing failing ignore
  · exact classify_cf_ut_disjoint method path documented seen passing failing ignore
  · exact classify_extra_union method path documented seen passing failing ignore
  · exact classify_extra_disjoint method path documented seen passing failing ignore

/-- C5: a code in both `passing` and `failing` is classified on the
failing side (covered_failing when non-ignored, ignored_failing when
ignored) and never lands in covered_passing or ignored_passing. -/
theorem claim_C5 (method path : List Char) (documented seen passing failing : Finset ℤ)
    (ignore : StatusIgnore) (c : ℤ) (hp : c ∈ passing) (hf : c ∈ failing) :
    let r := classify_endpoint method path documented seen passing failing ignore
    (c ∈ r.nonignored_docs → c ∈ r.covered_failing) ∧
    (c ∈ r.ignored_docs → c ∈ r.ignored_failing) ∧
    c ∉ r.covered_passing ∧ c ∉ r.ignored_passing := by
  refine ⟨?_, ?_, ?_, ?_⟩
  · intro hn
    show c ∈ Finset.filter (fun c => c ∈ failing) _
    rw [Finset.mem_filter]
    exact ⟨hn, hf⟩
  · intro hi
    show c ∈ Finset.filter (fun c => c ∈ failing) _
    rw [Finset.mem_filter]
    exact ⟨hi, hf⟩
  · show c ∉ Finset.filter (fun c => c ∉ failing ∧ c ∈ passing) _
    rw [Finset.mem_filter]
    tauto
  · show c ∉ Finset.filter (fun c => c ∈ passing ∧ c ∉ failing) _
    rw [Finset.mem_filter]
    tauto

/-- C5 witness: code 200 documented, non-ignored, in both passing and
failing, is covered_failing and not covered_passing. -/
theorem claim_C5_witness :
    (200 : ℤ) ∈ ({200} : Finset ℤ) ∧
    ((200 : ℤ) ∈ (classify_endpoint "GET".data "/x".data {200} {200} {200} {200}
        defaultIgnore).nonignored_docs →
      (200 : ℤ) ∈ (classify_endpoint "GET".data "/x".data {200} {200} {200} {200}
        defaultIgnore).covered_failing) ∧
    (200 : ℤ) ∉ (classify_endpoint "GET".data "/x".data {200} {200} {200} {200}
        defaultIgnore).covered_passing :=
  ⟨by decide,
   (claim_C5 "GET".data "/x".data {200} {200} {200} {200} defaultIgnore 200
      (by decide) (by decide)).1,
   (claim_C5 "GET".data "/x".data {200} {200} {200} {200} defaultIgnore 200
      (by decide) (by decide)).2.2.1⟩

/-- C2 counterexample: with ignore rule `5XX`, documented `{500}`, seen
`{500}`, failing `{500}`: `nonignored_docs` is empty and the only
coverage signal is the ignored bucket (`ignored_failing = {500}`), yet
the color is red, not green — the claim as stated is false. -/
theorem claim_C2_cex :
    (classify_endpoint "GET".data "/x".data {500} {500} ∅ {500}
        (buildStatusIgnore ["5XX".data])).nonignored_docs = ∅ ∧
    (classify_endpoint "GET".data "/x".data {500} {500} ∅ {500}
        (buildStatusIgnore ["5XX".data])).ignored_failing ≠ ∅ ∧
    (classify_endpoint "GET".data "/x".data {500} {500} ∅ {500}
        (buildStatusIgnore ["5XX".data])).color = Color.red ∧
    ¬(classify_endpoint "GET".data "/x".data {500} {500} ∅ {500}
        (buildStatusIgnore ["5XX".data])).color = Color.green := by decide

/-- C2 (amended): when `nonignored_docs` is empty and the only coverage
signal is `ignored_passing` (no ignored failures and both extra buckets
empty), the green-branch equality `0 == 0` holds trivially and the color
is green. -/
theorem claim_C2 (method path : List Char) (documented seen passing failing : Finset ℤ)
    (ignore : StatusIgnore)
    (hn : (classify_endpoint method path documented seen passing failing ignore).nonignored_docs = ∅)
    (hip : (classify_endpoint method path documented seen passing failing ignore).ignored_passing ≠ ∅)
    (hif : (classify_endpoint method path documented seen passing failing ignore).ignored_failing = ∅)
    (hen : (classify_endpoint method path documented seen passing failing ignore).extra_nonignored = ∅)
    (hei : (classify_endpoint method path documented seen passing failing ignore).extra_ignored = ∅) :
    (classify_endpoint method path documented seen passing failing ignore).color =
      Color.green := by
  have hext : seen \ documented = ∅ :=
    (classify_extra_empty_iff method path documented seen passing failing ignore).mp ⟨hen, hei⟩
  have hcf : (classify_endpoint method path documented seen passing failing ignore).covered_failing = ∅ := by
    show Finset.filter _ (Finset.filter _ documented) = ∅
    have hn' : Finset.filter (fun c => ¬ is_ignored ignore c) documented = ∅ := hn
    rw [hn']
    simp
  have hcp : (classify_endpoint method path documented seen passing failing ignore).covered_passing = ∅ := by
    show Finset.filter _ (Finset.filter _ documented) = ∅
    have hn' : Finset.filter (fun c => ¬ is_ignored ignore c) documented = ∅ := hn
    rw [hn']
    simp
  rw [classify_color_def]
  rw [if_neg, if_neg, if_pos]
  · rw [hcp, hn]
  · rw [hcf, hif, hext]
    simp
  · rw [not_not]
    tauto

/-- C2 witness: documented `{429}` with ignore rule `429`, seen and
passing `{429}`: coverage exists only through `ignored_passing` and the
color is green. -/
theorem claim_C2_witness :
    (classify_endpoint "GET".data "/w".data {429} {429} {429} ∅
        (buildStatusIgnore ["429".data])).color = Color.green :=
  claim_C2 "GET".data "/w".data {429} {429} {429} ∅ (buildStatusIgnore ["429".data])
    (by decide) (by decide) (by decide) (by decide) (by decide)

/-! ### Lemmas about `StatusIgnore` (claim C6) -/

/-- A number with at least `k + 1` decimal digits renders to at least
`k + 1` characters (with any sufficiently large fuel). -/
lemma natCharsAux_length_ge (k : ℕ) :
    ∀ fuel n : ℕ, 10 ^ k ≤ n → k < fuel → k + 1 ≤ (natCharsAux fuel n).length := by
  induction k with
  | zero =>
    intro fuel n hn hf
    cases fuel with
    | zero => omega
    | succ f =>
      simp only [natCharsAux]
      split_ifs
      · simp
      · simp
  | succ k ih =>
    intro fuel n hn hf
    cases fuel with
    | zero => omega
    | succ f =>
      have hten : (10 : ℕ) ≤ 10 ^ (k + 1) := Nat.le_self_pow (Nat.succ_ne_zero k) 10
      have h10 : ¬ n < 10 := by omega
      simp only [natCharsAux, if_neg h10, List.length_append, List.length_cons,
        List.length_nil]
      have hdiv : 10 ^ k ≤ n / 10 := by
        rw [Nat.le_div_iff_mul_le (by norm_num : 0 < 10)]
        calc 10 ^ k * 10 = 10 ^ (k + 1) := (pow_succ 10 k).symm
          _ ≤ n := hn
      have := ih f (n / 10) hdiv (by omega)
      omega

/-- A number of 1000 or more renders to at least four characters. -/
lemma natChars_length_ge_four (n : ℕ) (h : 1000 ≤ n) : 4 ≤ (natChars n).length :=
  natCharsAux_length_ge 3 (n + 1) n (by norm_num; omega) (by omega)

/-- `_add_token` only ever registers digit characters as class keys. -/
lemma addToken_prefixes_sub (ig : StatusIgnore) (t : List Char) :
    ∀ c ∈ (addToken ig t).prefixes, c ∈ ig.prefixes ∨ c.isDigit = true := by
  intro c hc
  unfold addToken at hc
  split at hc
  · exact Or.inl hc
  · split at hc
    · rename_i hcond
      rcases Finset.mem_insert.mp hc with h1 | h1
      · subst h1
        exact Or.inr hcond.2.1
      · exact Or.inl h1
    · exact Or.inl hc

lemma foldl_addToken_prefixes (ts : List (List Char)) :
    ∀ ig : StatusIgnore, (∀ c ∈ ig.prefixes, c.isDigit = true) →
      ∀ c ∈ (ts.foldl addToken ig).prefixes, c.isDigit = true := by
  induction ts with
  | nil => exact fun ig h c hc => h c hc
  | cons t ts ih =>
    intro ig h c hc
    refine ih (addToken ig t) (fun c' hc' => ?_) c hc
    rcases addToken_prefixes_sub ig t c' hc' with h1 | h1
    · exact h c' h1
    · exact h1

lemma processToken_prefixes (raw : List Char) (ig : StatusIgnore)
    (h : ∀ c ∈ ig.prefixes, c.isDigit = true) :
    ∀ c ∈ (processToken ig raw).prefixes, c.isDigit = true := by
  intro c hc
  unfold processToken at hc
  split at hc
  · exact h c hc
  · split at hc
    · exact foldl_addToken_prefixes _ ig h c hc
    · rcases addToken_prefixes_sub ig (pyStrip raw) c hc with h1 | h1
      · exact h c h1
      · exact h1

/-- Every registered class key of a built rule set is a decimal digit. -/
lemma buildStatusIgnore_prefixes_digit (patterns : List (List Char)) :
    ∀ c ∈ (buildStatusIgnore patterns).prefixes, c.isDigit = true := by
  suffices h : ∀ (ps : List (List Char)) (ig : StatusIgnore),
      (∀ c ∈ ig.prefixes, c.isDigit = true) →
      ∀ c ∈ (ps.foldl processToken ig).prefixes, c.isDigit = true by
    exact h patterns ⟨∅, ∅⟩ (by simp)
  intro ps
  induction ps with
  | nil => exact fun ig h c hc => h c hc
  | cons p ps ih =>
    intro ig h c hc
    exact ih (processToken ig p) (processToken_prefixes p ig h) c hc

/-- Codes outside the 3-digit range never satisfy the class-rule test. -/
lemma classRule_no_match (patterns : List (List Char)) (code : ℤ)
    (h : code < 0 ∨ 999 < code) :
    ¬((pyStrInt code).length = 3 ∧
      (pyStrInt code).headD ' ' ∈ (buildStatusIgnore patterns).prefixes) := by
  rintro ⟨hlen, hmem⟩
  rcases h with h | h
  · rw [show pyStrInt code = '-' :: natChars code.natAbs from by
        unfold pyStrInt; rw [if_pos h]] at hmem
    have hd := buildStatusIgnore_prefixes_digit patterns _ (by simpa using hmem)
    simp [Char.isDigit] at hd
  · have hnn : ¬ code < 0 := by omega
    rw [show pyStrInt code = natChars code.toNat from by
        unfold pyStrInt; rw [if_neg hnn]] at hlen
    have h4 : 4 ≤ (natChars code.toNat).length :=
      natChars_length_ge_four _ (by omega)
    omega

/-- C6: `is_ignored` is exact-set membership or a registered-class match on
the 3-character decimal rendering; a token neither integer-parseable nor of
`dXX` shape adds no rule; codes outside the 3-digit range never match a
class rule; and the concrete `["429","5XX"]` behaviors, with `"4XX-ish"`
adding nothing. -/
theorem claim_C6 :
    (∀ (tokens : List (List Char)) (code : ℤ),
        is_ignored (buildStatusIgnore tokens) code = true ↔
          code ∈ (buildStatusIgnore tokens).codes ∨
            ((pyStrInt code).length = 3 ∧
              (pyStrInt code).headD ' ' ∈ (buildStatusIgnore tokens).prefixes)) ∧
    (∀ (ig : StatusIgnore) (t : List Char), pyParseInt t = none →
        ¬(t.length = 3 ∧ (t.headD ' ').isDigit = true ∧ t.drop 1 = ['X', 'X']) →
        addToken ig t = ig) ∧
    (∀ (tokens : List (List Char)) (code : ℤ), code < 0 ∨ 999 < code →
        ¬((pyStrInt code).length = 3 ∧
          (pyStrInt code).headD ' ' ∈ (buildStatusIgnore tokens).prefixes)) ∧
    (is_ignored (buildStatusIgnore ["429".data, "5XX".data]) 429 = true ∧
      is_ignored (buildStatusIgnore ["429".data, "5XX".data]) 500 = true ∧
      is_ignored (buildStatusIgnore ["429".data, "5XX".data]) 501 = true ∧
      is_ignored (buildStatusIgnore ["429".data, "5XX".data]) 404 = false ∧
      buildStatusIgnore ["429".data, "5XX".data, "4XX-ish".data] =
        buildStatusIgnore ["429".data, "5XX".data]) := by
  refine ⟨?_, ?_, ?_, ?_⟩
  · intro tokens code
    unfold is_ignored
    split_ifs with h1 h2
    · exact iff_of_true rfl (Or.inl h1)
    · exact iff_of_true rfl (Or.inr h2)
    · exact iff_of_false (by simp) (by tauto)
  · intro ig t h1 h2
    unfold addToken
    rw [h1, if_neg h2]
  · exact classRule_no_match
  · exact ⟨by decide, by decide, by decide, by decide, by decide⟩

/-- C6 witness: the malformed token `4XX-ish` leaves the rule set
untouched, and the out-of-range code `-50` fails the class-rule test. -/
theorem claim_C6_witness :
    addToken ⟨∅, ∅⟩ "4XX-ish".data = ⟨∅, ∅⟩ ∧
    ¬((pyStrInt (-50)).length = 3 ∧
      (pyStrInt (-50)).headD ' ' ∈ (buildStatusIgnore ["429".data, "5XX".data]).prefixes) :=
  ⟨claim_C6.2.1 ⟨∅, ∅⟩ "4XX-ish".data (by decide) (by decide),
   claim_C6.2.2.1 ["429".data, "5XX".data] (-50) (Or.inl (by decide))⟩

/-! ### Lemmas about the association-list maps of the pipeline -/

section MapLemmas

variable {α : Type} [DecidableEq α]

lemma lookupD_addAt_self (k : α) (v : ℤ) :
    ∀ m : List (α × Finset ℤ), lookupD k (addAt k v m) = insert v (lookupD k m) := by
  intro m
  induction m with
  | nil => simp [addAt, lookupD]
  | cons e rest ih =>
    obtain ⟨k', s⟩ := e
    by_cases h : k' = k
    · simp [addAt, lookupD, h]
    · simp [addAt, lookupD, h, ih]

lemma lookupD_addAt_ne (k q : α) (v : ℤ) (hkq : k ≠ q) :
    ∀ m : List (α × Finset ℤ), lookupD q (addAt k v m) = lookupD q m := by
  intro m
  induction m with
  | nil => simp [addAt, lookupD, hkq]
  | cons e rest ih =>
    obtain ⟨k', s⟩ := e
    by_cases h : k' = k
    · subst h
      simp [addAt, lookupD, hkq]
    · simp [addAt, lookupD, h, ih]

lemma lookupD_addAt_sub (k q : α) (v : ℤ) (m : List (α × Finset ℤ)) :
    lookupD q m ⊆ lookupD q (addAt k v m) := by
  by_cases hkq : k = q
  · subst hkq
    rw [lookupD_addAt_self]
    exact Finset.subset_insert _ _
  · rw [lookupD_addAt_ne k q v hkq]

lemma lookupD_entry_mem (k : α) :
    ∀ (m : List (α × Finset ℤ)) (st : ℤ), st ∈ lookupD k m →
      ∃ s, (k, s) ∈ m ∧ st ∈ s := by
  intro m
  induction m with
  | nil => simp [lookupD]
  | cons e rest ih =>
    obtain ⟨k', s⟩ := e
    intro st hst
    by_cases h : k' = k
    · subst h
      rw [lookupD, if_pos rfl] at hst
      exact ⟨s, List.mem_cons_self _ _, hst⟩
    · rw [lookupD, if_neg h] at hst
      obtain ⟨s', hs', hm⟩ := ih st hst
      exact ⟨s', List.mem_cons_of_mem _ hs', hm⟩

lemma lookupCase_upsert_self {β : Type} (k : α) (v : β) :
    ∀ m : List (α × β), lookupCase k (upsert k v m) = some v := by
  intro m
  induction m with
  | nil => simp [upsert, lookupCase]
  | cons e rest ih =>
    obtain ⟨k', v'⟩ := e
    by_cases h : k' = k
    · simp [upsert, lookupCase, h]
    · simp [upsert, lookupCase, h, ih]

lemma lookupCase_upsert_ne {β : Type} (k k' : α) (v : β) (h : k' ≠ k) :
    ∀ m : List (α × β), lookupCase k (upsert k' v m) = lookupCase k m := by
  intro m
  induction m with
  | nil => simp [upsert, lookupCase, h]
  | cons e rest ih =>
    obtain ⟨k'', v'⟩ := e
    by_cases h2 : k'' = k'
    · subst h2
      simp [upsert, lookupCase, h]
    · simp [upsert, lookupCase, h2, ih]

lemma lookupCase_mem {β : Type} (k : α) (v : β) :
    ∀ m : List (α × β), lookupCase k m = some v → (k, v) ∈ m := by
  intro m
  induction m with
  | nil => simp [lookupCase]
  | cons e rest ih =>
    obtain ⟨k', v'⟩ := e
    intro h
    by_cases h2 : k' = k
    · subst h2
      rw [lookupCase, if_pos rfl] at h
      rw [Option.some_inj] at h
      subst h
      exact List.mem_cons_self _ _
    · rw [lookupCase, if_neg h2] at h
      exact List.mem_cons_of_mem _ (ih h)

end MapLemmas

/-! ### Lemmas about the verdict reconciliation (claims C4, C7) -/

/-- One step of the verdict loop. -/
def verdictStep (failingIds : Finset CaseId)
    (acc : List (EndpointKey × Finset ℤ) × List (EndpointKey × Finset ℤ))
    (p : CaseId × (EndpointKey × ℤ)) :
    List (EndpointKey × Finset ℤ) × List (EndpointKey × Finset ℤ) :=
  if p.1 ∈ failingIds then (addAt p.2.1 p.2.2 acc.1, acc.2)
  else (acc.1, addAt p.2.1 p.2.2 acc.2)

lemma buildVerdicts_eq (caseMap : List (CaseId × (EndpointKey × ℤ))) (failingIds : Finset CaseId) :
    buildVerdicts caseMap failingIds = caseMap.foldl (verdictStep failingIds) ([], []) := rfl

lemma verdictsFold_failing_mono (failingIds : Finset CaseId) (ep : EndpointKey) :
    ∀ (l : List (CaseId × (EndpointKey × ℤ)))
      (acc : List (EndpointKey × Finset ℤ) × List (EndpointKey × Finset ℤ)),
      lookupD ep acc.1 ⊆ lookupD ep (l.foldl (verdictStep failingIds) acc).1 := by
  intro l
  induction l with
  | nil => intro acc; exact Finset.Subset.refl _
  | cons p l ih =>
    intro acc
    refine Finset.Subset.trans ?_ (ih (verdictStep failingIds acc p))
    unfold verdictStep
    split_ifs
    · exact lookupD_addAt_sub _ _ _ _
    · exact Finset.Subset.refl _

lemma verdictsFold_failing_mem (failingIds : Finset CaseId) (id : CaseId) (ep : EndpointKey)
    (st : ℤ) (hid : id ∈ failingIds) :
    ∀ (l : List (CaseId × (EndpointKey × ℤ)))
      (acc : List (EndpointKey × Finset ℤ) × List (EndpointKey × Finset ℤ)),
      (id, (ep, st)) ∈ l → st ∈ lookupD ep (l.foldl (verdictStep failingIds) acc).1 := by
  intro l
  induction l with
  | nil => simp
  | cons p l ih =>
    intro acc hmem
    rcases List.mem_cons.mp hmem with h | h
    · subst h
      refine verdictsFold_failing_mono failingIds ep l _ ?_
      show st ∈ lookupD ep (verdictStep failingIds acc (id, (ep, st))).1
      unfold verdictStep
      rw [if_pos hid]
      show st ∈ lookupD ep (addAt ep st acc.1)
      rw [lookupD_addAt_self]
      exact Finset.mem_insert_self _ _
    · exact ih _ h

/-- The triplet kept for a correlation id is the one of the last
observation carrying that id. -/
def lastWith (id : CaseId) (obs : List Obs) : Option Obs :=
  obs.foldl (fun acc o => if o.caseId = some id then some o else acc) none

lemma buildCaseMap_snoc (obs : List Obs) (o : Obs) :
    buildCaseMap (obs ++ [o]) =
      (match o.caseId with
       | some cid => upsert cid (o.endpoint, o.status) (buildCaseMap obs)
       | none => buildCaseMap obs) := by
  unfold buildCaseMap
  rw [List.foldl_append]
  rfl

lemma lastWith_snoc (id : CaseId) (obs : List Obs) (o : Obs) :
    lastWith id (obs ++ [o]) =
      (if o.caseId = some id then some o else lastWith id obs) := by
  unfold lastWith
  rw [List.foldl_append]
  rfl

/-- `case_to_triplet` lookup is the last observation with the given id. -/
lemma buildCaseMap_lookup (id : CaseId) :
    ∀ obs : List Obs,
      lookupCase id (buildCaseMap obs) =
        (lastWith id obs).map (fun o => (o.endpoint, o.status)) := by
  intro obs
  induction obs using List.reverseRecOn with
  | nil => rfl
  | append_singleton obs o ih =>
    rw [buildCaseMap_snoc, lastWith_snoc]
    match hcid : o.caseId with
    | none => simpa [hcid] using ih
    | some cid =>
      by_cases h : cid = id
      · subst h
        simp [hcid, lookupCase_upsert_self]
      · have hne : (some cid = some id) = False := by simp [h]
        simp only [hcid, hne, if_false]
        rw [lookupCase_upsert_ne id cid _ h]
        exact ih

/-- C7 counterexample input: two observations sharing the correlation id
`X`, with different endpoints and statuses; the id is failing. -/
def cexObsA : Obs := ⟨("GET".data, "/a".data), 200, some "X".data⟩

/-- Second observation of the C7 counterexample, overwriting the first. -/
def cexObsB : Obs := ⟨("GET".data, "/b".data), 500, some "X".data⟩

/-- C7 counterexample: the first observation carries a failing correlation
id, yet its (endpoint, status) pair is not in the failing map — the later
observation with the same id overwrote it in `case_to_triplet`. -/
theorem claim_C7_cex :
    cexObsA ∈ [cexObsA, cexObsB] ∧
    cexObsA.caseId = some "X".data ∧
    "X".data ∈ ({"X".data} : Finset CaseId) ∧
    cexObsA.status ∉
      lookupD cexObsA.endpoint (pipelineFailing [cexObsA, cexObsB] {"X".data}) := by
  refine ⟨List.mem_cons_self _ _, rfl, Finset.mem_singleton_self _, ?_⟩
  decide

/-- C7 (amended): for every correlation id in `failingIds`, the
(endpoint, status) pair of the *last* observation carrying that id is in
the failing map; earlier observations with the same id are overwritten in
`case_to_triplet` and do not contribute. -/
theorem claim_C7 (obs : List Obs) (failingIds : Finset CaseId) (id : CaseId) (o : Obs)
    (hlast : lastWith id obs = some o) (hid : id ∈ failingIds) :
    o.status ∈ lookupD o.endpoint (pipelineFailing obs failingIds) := by
  have h := buildCaseMap_lookup id obs
  rw [hlast] at h
  have hmem : (id, (o.endpoint, o.status)) ∈ buildCaseMap obs :=
    lookupCase_mem id _ (buildCaseMap obs) h
  exact verdictsFold_failing_mem failingIds id o.endpoint o.status hid
    (buildCaseMap obs) ([], []) hmem

/-- C7 witness: a single failing observation lands in the failing map. -/
theorem claim_C7_witness :
    (200 : ℤ) ∈ lookupD ("GET".data, "/a".data) (pipelineFailing [cexObsA] {"X".data}) :=
  claim_C7 [cexObsA] {"X".data} "X".data cexObsA (by decide) (by decide)

/-! ### Lemmas about the default-innocent fallback (claim C4) -/

lemma fallbackInner_mono (failingList : List (EndpointKey × Finset ℤ)) (ep q : EndpointKey) :
    ∀ (sts : List ℤ) (pl : List (EndpointKey × Finset ℤ)),
      lookupD q pl ⊆ lookupD q (fallbackInner failingList ep pl sts) := by
  intro sts
  induction sts with
  | nil => intro pl; exact Finset.Subset.refl _
  | cons st sts ih =>
    intro pl
    show lookupD q pl ⊆ lookupD q (fallbackInner failingList ep
      (if st ∈ lookupD ep failingList then pl
       else if st ∈ lookupD ep pl then pl
       else addAt ep st pl) sts)
    refine Finset.Subset.trans ?_ (ih _)
    split_ifs
    · exact Finset.Subset.refl _
    · exact Finset.Subset.refl _
    · exact lookupD_addAt_sub _ _ _ _

lemma fallbackInner_mem (failingList : List (EndpointKey × Finset ℤ)) (ep : EndpointKey)
    (st : ℤ) (hfail : st ∉ lookupD ep failingList) :
    ∀ (sts : List ℤ) (pl : List (EndpointKey × Finset ℤ)), st ∈ sts →
      st ∈ lookupD ep (fallbackInner failingList ep pl sts) := by
  intro sts
  induction sts with
  | nil => simp
  | cons s sts ih =>
    intro pl hmem
    rcases List.mem_cons.mp hmem with h | h
    · subst h
      show st ∈ lookupD ep (fallbackInner failingList ep
        (if st ∈ lookupD ep failingList then pl
         else if st ∈ lookupD ep pl then pl
         else addAt ep st pl) sts)
      rw [if_neg hfail]
      by_cases hpl : st ∈ lookupD ep pl
      · rw [if_pos hpl]
        exact fallbackInner_mono failingList ep ep sts pl hpl
      · rw [if_neg hpl]
        refine fallbackInner_mono failingList ep ep sts _ ?_
        rw [lookupD_addAt_self]
        exact Finset.mem_insert_self _ _
    · exact ih _ h

lemma applyFallback_mono (failingList : List (EndpointKey × Finset ℤ)) (q : EndpointKey) :
    ∀ (seenList pl : List (EndpointKey × Finset ℤ)),
      lookupD q pl ⊆ lookupD q (applyFallback seenList failingList pl) := by
  intro seenList
  induction seenList with
  | nil => intro pl; exact Finset.Subset.refl _
  | cons e l ih =>
    intro pl
    exact Finset.Subset.trans (fallbackInner_mono failingList e.1 q _ pl) (ih _)

lemma applyFallback_mem (failingList : List (EndpointKey × Finset ℤ)) (ep : EndpointKey)
    (sts : Finset ℤ) (st : ℤ) (hst : st ∈ sts) (hfail : st ∉ lookupD ep failingList) :
    ∀ (seenList pl : List (EndpointKey × Finset ℤ)), (ep, sts) ∈ seenList →
      st ∈ lookupD ep (applyFallback seenList failingList pl) := by
  intro seenList
  induction seenList with
  | nil => simp
  | cons e l ih =>
    intro pl hmem
    rcases List.mem_cons.mp hmem with h | h
    · subst h
      refine applyFallback_mono failingList ep l _ ?_
      exact fallbackInner_mem failingList ep st hfail _ pl
        ((Finset.mem_sort _).mpr hst)
    · exact ih _ h

/-- C4: every status seen in bulk traffic that is not in the endpoint's
failing set ends up in its passing set (default-innocent fallback), even
with no correlation id anywhere; and concretely, a documented non-ignored
code 200 observed once with no correlation id and no failing ids is
classified `covered_passing`. -/
theorem claim_C4 :
    (∀ (obs : List Obs) (failingIds : Finset CaseId) (ep : EndpointKey) (st : ℤ),
        st ∈ lookupD ep (buildSeen obs) →
        st ∉ lookupD ep (pipelineFailing obs failingIds) →
        st ∈ lookupD ep (pipelinePassing obs failingIds)) ∧
    (classify_endpoint "GET".data "/s".data {200}
        (lookupD ("GET".data, "/s".data)
          (buildSeen [⟨("GET".data, "/s".data), 200, none⟩]))
        (lookupD ("GET".data, "/s".data)
          (pipelinePassing [⟨("GET".data, "/s".data), 200, none⟩] ∅))
        (lookupD ("GET".data, "/s".data)
          (pipelineFailing [⟨("GET".data, "/s".data), 200, none⟩] ∅))
        defaultIgnore).covered_passing = {200} := by
  have main : ∀ (obs : List Obs) (failingIds : Finset CaseId) (ep : EndpointKey) (st : ℤ),
      st ∈ lookupD ep (buildSeen obs) →
      st ∉ lookupD ep (pipelineFailing obs failingIds) →
      st ∈ lookupD ep (pipelinePassing obs failingIds) := by
    intro obs failingIds ep st hseen hfail
    obtain ⟨sts, hmem, hst⟩ := lookupD_entry_mem ep (buildSeen obs) st hseen
    exact applyFallback_mem (pipelineFailing obs failingIds) ep sts st hst hfail
      (buildSeen obs) _ hmem
  refine ⟨main, ?_⟩
  have h200 := main [⟨("GET".data, "/s".data), 200, none⟩] ∅ ("GET".data, "/s".data) 200
    (by decide) (by decide)
  show Finset.filter _ (Finset.filter _ {200}) = {200}
  rw [Finset.filter_singleton, if_pos (by decide : ¬ is_ignored defaultIgnore 200 = true)]
  rw [Finset.filter_singleton, if_pos]
  exact ⟨by decide, h200⟩

/-- C4 witness: a status observed with no correlation id and absent from
the failing map is in the final passing map. -/
theorem claim_C4_witness :
    (418 : ℤ) ∈ lookupD ("GET".data, "/t".data)
      (pipelinePassing [⟨("GET".data, "/t".data), 418, none⟩] ∅) :=
  claim_C4.1 [⟨("GET".data, "/t".data), 418, none⟩] ∅ ("GET".data, "/t".data) 418
    (by decide) (by decide)

/-! ### Lemmas about `load_failing_test_ids` (claim C8) -/

lemma isPrefixOf_cons_false (p : Char) (ps : List Char) (c : Char) (l : List Char)
    (h : p ≠ c) : (p :: ps).isPrefixOf (c :: l) = false := by
  have hb : (p == c) = false := beq_eq_false_iff_ne.mpr h
  simp [List.isPrefixOf, hb]

lemma afterFirst_append_self (pat rest : List Char) (h : pat ≠ []) :
    afterFirst pat (pat ++ rest) = some rest := by
  match pat, h with
  | p :: ps, _ =>
    have hpre : (p :: ps).isPrefixOf (p :: (ps ++ rest)) = true :=
      List.isPrefixOf_iff_prefix.mpr (List.prefix_append _ _)
    show afterFirst (p :: ps) (p :: (ps ++ rest)) = some rest
    rw [afterFirst, if_pos hpre]
    simp [List.drop_left]

lemma afterFirst_cons_of_not (pat : List Char) (c : Char) (l : List Char)
    (h : pat.isPrefixOf (c :: l) = false) :
    afterFirst pat (c :: l) = afterFirst pat l := by
  rw [afterFirst, if_neg (by simp [h])]

/-- A stripped line of one of the three matched shapes yields its id. -/
lemma extractLine_of_form (line rest : List Char)
    (hform : pyStrip line = "Test Case ID:".data ++ rest ∨
      pyStrip line = "1. Test Case ID:".data ++ rest ∨
      pyStrip line = "2. Test Case ID:".data ++ rest)
    (hne : pyStrip rest ≠ []) :
    extractLine line = some (pyStrip rest) := by
  have hTpos : "Test Case ID:".data.isPrefixOf ("Test Case ID:".data ++ rest) = true :=
    List.isPrefixOf_iff_prefix.mpr (List.prefix_append _ _)
  have haft : afterFirst "Test Case ID:".data ("Test Case ID:".data ++ rest) = some rest :=
    afterFirst_append_self _ _ (by decide)
  rcases hform with h | h | h
  · have c1 : "1. Test Case ID:".data.isPrefixOf ("Test Case ID:".data ++ rest) = false := by
      rw [show "Test Case ID:".data ++ rest = 'T' :: ("est Case ID:".data ++ rest) from rfl]
      exact isPrefixOf_cons_false '1' _ 'T' _ (by decide)
    have c2 : "2. Test Case ID:".data.isPrefixOf ("Test Case ID:".data ++ rest) = false := by
      rw [show "Test Case ID:".data ++ rest = 'T' :: ("est Case ID:".data ++ rest) from rfl]
      exact isPrefixOf_cons_false '2' _ 'T' _ (by decide)
    have hc : ¬(("1. Test Case ID:".data.isPrefixOf ("Test Case ID:".data ++ rest) ||
        "2. Test Case ID:".data.isPrefixOf ("Test Case ID:".data ++ rest)) = true) := by
      rw [c1, c2]
      simp
    unfold extractLine
    rw [h, if_neg hc, if_pos hTpos, haft]
    show (if pyStrip rest = [] then none else some (pyStrip rest)) = some (pyStrip rest)
    rw [if_neg hne]
  · have c1 : "1. Test Case ID:".data.isPrefixOf ("1. Test Case ID:".data ++ rest) = true :=
      List.isPrefixOf_iff_prefix.mpr (List.prefix_append _ _)
    have hc : (("1. Test Case ID:".data.isPrefixOf ("1. Test Case ID:".data ++ rest) ||
        "2. Test Case ID:".data.isPrefixOf ("1. Test Case ID:".data ++ rest)) = true) := by
      rw [c1]
      simp
    have haft1 : afterFirst "Test Case ID:".data ("1. Test Case ID:".data ++ rest) =
        some rest := by
      rw [show "1. Test Case ID:".data ++ rest =
            '1' :: '.' :: ' ' :: ("Test Case ID:".data ++ rest) from rfl,
        afterFirst_cons_of_not _ _ _ (isPrefixOf_cons_false 'T' _ '1' _ (by decide)),
        afterFirst_cons_of_not _ _ _ (isPrefixOf_cons_false 'T' _ '.' _ (by decide)),
        afterFirst_cons_of_not _ _ _ (isPrefixOf_cons_false 'T' _ ' ' _ (by decide))]
      exact haft
    unfold extractLine
    rw [h, if_pos hc, haft1]
    show (if pyStrip rest = [] then none else some (pyStrip rest)) = some (pyStrip rest)
    rw [if_neg hne]
  · have c2 : "2. Test Case ID:".data.isPrefixOf ("2. Test Case ID:".data ++ rest) = true :=
      List.isPrefixOf_iff_prefix.mpr (List.prefix_append _ _)
    have hc : (("1. Test Case ID:".data.isPrefixOf ("2. Test Case ID:".data ++ rest) ||
        "2. Test Case ID:".data.isPrefixOf ("2. Test Case ID:".data ++ rest)) = true) := by
      rw [c2]
      simp
    have haft2 : afterFirst "Test Case ID:".data ("2. Test Case ID:".data ++ rest) =
        some rest := by
      rw [show "2. Test Case ID:".data ++ rest =
            '2' :: '.' :: ' ' :: ("Test Case ID:".data ++ rest) from rfl,
        afterFirst_cons_of_not _ _ _ (isPrefixOf_cons_false 'T' _ '2' _ (by decide)),
        afterFirst_cons_of_not _ _ _ (isPrefixOf_cons_false 'T' _ '.' _ (by decide)),
        afterFirst_cons_of_not _ _ _ (isPrefixOf_cons_false 'T' _ ' ' _ (by decide))]
      exact haft
    unfold extractLine
    rw [h, if_pos hc, haft2]
    show (if pyStrip rest = [] then none else some (pyStrip rest)) = some (pyStrip rest)
    rw [if_neg hne]

lemma lineFold_subset :
    ∀ (msg : List (List Char)) (acc : Finset (List Char)), acc ⊆ msg.foldl lineStep acc := by
  intro msg
  induction msg with
  | nil => intro acc; exact Finset.Subset.refl _
  | cons line msg ih =>
    intro acc
    refine Finset.Subset.trans ?_ (ih (lineStep acc line))
    unfold lineStep
    match extractLine line with
    | some cid => exact Finset.subset_insert _ _
    | none => exact Finset.Subset.refl _

lemma lineFold_mem (line : List Char) (cid : List Char) (hex : extractLine line = some cid) :
    ∀ (msg : List (List Char)) (acc : Finset (List Char)), line ∈ msg →
      cid ∈ msg.foldl lineStep acc := by
  intro msg
  induction msg with
  | nil => simp
  | cons l msg ih =>
    intro acc hmem
    rcases List.mem_cons.mp hmem with h | h
    · subst h
      refine lineFold_subset msg _ ?_
      unfold lineStep
      rw [hex]
      exact Finset.mem_insert_self _ _
    · exact ih _ h

lemma msgFold_subset :
    ∀ (messages : List (List (List Char))) (acc : Finset (List Char)),
      acc ⊆ messages.foldl msgStep acc := by
  intro messages
  induction messages with
  | nil => intro acc; exact Finset.Subset.refl _
  | cons msg messages ih =>
    intro acc
    exact Finset.Subset.trans (lineFold_subset msg acc) (ih (msgStep acc msg))

/-- C8 counterexample: the line `3. Test Case ID: xyz` is of the claimed
indexed form (index 3, non-empty id `xyz`), yet no id is extracted — the
code only matches index prefixes `1.` and `2.`. -/
theorem claim_C8_cex :
    pyStrip "3. Test Case ID: xyz".data = "3. Test Case ID:".data ++ " xyz".data ∧
    pyStrip " xyz".data = "xyz".data ∧
    "xyz".data ∉ load_failing_test_ids [["3. Test Case ID: xyz".data]] ∧
    load_failing_test_ids [["3. Test Case ID: xyz".data]] = ∅ := by decide

/-- C8 (amended): every line of a failure message of the form
`1. Test Case ID: <id>`, `2. Test Case ID: <id>` or `Test Case ID: <id>`
(after stripping; only index prefixes `1.` and `2.` are recognized)
contributes its non-empty stripped id to the failing-ids set. -/
theorem claim_C8 (messages : List (List (List Char))) (msg : List (List Char))
    (line rest : List Char) (hmsg : msg ∈ messages) (hline : line ∈ msg)
    (hform : pyStrip line = "Test Case ID:".data ++ rest ∨
      pyStrip line = "1. Test Case ID:".data ++ rest ∨
      pyStrip line = "2. Test Case ID:".data ++ rest)
    (hne : pyStrip rest ≠ []) :
    pyStrip rest ∈ load_failing_test_ids messages := by
  have hex := extractLine_of_form line rest hform hne
  have hgen : ∀ (ms : List (List (List Char))) (acc : Finset (List Char)), msg ∈ ms →
      pyStrip rest ∈ ms.foldl msgStep acc := by
    intro ms
    induction ms with
    | nil => simp
    | cons m ms ih =>
      intro acc hmem
      rcases List.mem_cons.mp hmem with h | h
      · subst h
        exact msgFold_subset ms _ (lineFold_mem line _ hex msg acc hline)
      · exact ih _ h
  exact hgen messages ∅ hmsg

/-- C8 witness: the unprefixed and `1.`-prefixed forms extract their id. -/
theorem claim_C8_witness :
    "7dQuzM".data ∈ load_failing_test_ids [["1. Test Case ID: 7dQuzM".data]] := by
  have h := claim_C8 [["1. Test Case ID: 7dQuzM".data]] ["1. Test Case ID: 7dQuzM".data]
    "1. Test Case ID: 7dQuzM".data " 7dQuzM".data
    (by decide) (by decide) (Or.inr (Or.inl (by decide))) (by decide)
  exact (by decide : pyStrip " 7dQuzM".data = "7dQuzM".data) ▸ h

/-- C9: the percentage guard of the summary rendering: with
`total_doc == 0` every percentage cell is the `-` placeholder (no
division is attempted), and with `total_doc > 0` the division branch is
taken for each cell. -/
theorem claim_C9 (s : Summary) :
    (s.total_doc = 0 →
      pct s.total_doc s.total_pass = PctCell.dash ∧
      pct s.total_doc s.total_fail = PctCell.dash ∧
      pct s.total_doc s.total_untested = PctCell.dash) ∧
    (s.total_doc ≠ 0 →
      pct s.total_doc s.total_pass =
        PctCell.val ((s.total_pass : ℚ) * 100 / (s.total_doc : ℚ)) ∧
      pct s.total_doc s.total_fail =
        PctCell.val ((s.total_fail : ℚ) * 100 / (s.total_doc : ℚ)) ∧
      pct s.total_doc s.total_untested =
        PctCell.val ((s.total_untested : ℚ) * 100 / (s.total_doc : ℚ))) := by
  constructor
  · intro h
    unfold pct
    rw [if_neg (by simp [h]), if_neg (by simp [h]), if_neg (by simp [h])]
    exact ⟨rfl, rfl, rfl⟩
  · intro h
    unfold pct
    rw [if_pos h, if_pos h, if_pos h]
    exact ⟨rfl, rfl, rfl⟩

/-- C9 witness: at `total_doc = 0` all cells render as dash; at
`total_doc = 2` the division branch is taken. -/
theorem claim_C9_witness :
    pct (Summary.mk 0 1 2 3 4).total_doc (Summary.mk 0 1 2 3 4).total_pass = PctCell.dash ∧
    pct (Summary.mk 2 1 0 0 0).total_doc (Summary.mk 2 1 0 0 0).total_pass =
      PctCell.val (((1 : ℕ) : ℚ) * 100 / ((2 : ℕ) : ℚ)) :=
  ⟨((claim_C9 ⟨0, 1, 2, 3, 4⟩).1 rfl).1, ((claim_C9 ⟨2, 1, 0, 0, 0⟩).2 (by decide)).1⟩

/-- C10: across every run, `total_pass + total_fail + total_untested =
total_doc`: the per-endpoint partition of the non-ignored documented
codes carries over to the aggregated totals. -/
theorem claim_C10 (ignore : StatusIgnore) (inputs : List EndpointInput) :
    (summarize ignore inputs).total_pass + (summarize ignore inputs).total_fail +
      (summarize ignore inputs).total_untested = (summarize ignore inputs).total_doc := by
  suffices h : ∀ (l : List EndpointInput) (s : Summary),
      s.total_pass + s.total_fail + s.total_untested = s.total_doc →
      (l.foldl (summaryStep ignore) s).total_pass +
        (l.foldl (summaryStep ignore) s).total_fail +
        (l.foldl (summaryStep ignore) s).total_untested =
        (l.foldl (summaryStep ignore) s).total_doc by
    exact h inputs ⟨0, 0, 0, 0, 0⟩ rfl
  intro l
  induction l with
  | nil => intro s hs; exact hs
  | cons inp l ih =>
    intro s hs
    refine ih (summaryStep ignore s inp) ?_
    have hcard := classify_card_identity inp.method inp.path inp.documented inp.seen
      inp.passing inp.failing ignore
    unfold summaryStep
    dsimp only
    omega
